import Mathlib

/-!
Shallow embedding of the queue-management service in `src/app.py`
(QueueRator). Python dicts holding the two durable JSON documents are
modelled as `Store` (a finite map from queue id to `Queue`, represented
as a function to `Option`) and `Stats`. Each Flask handler becomes a
pure function from the loaded state to (response, new state, trace of
persistence events); the trace records, in program order, the primitive
effects of `save_data` (which acquires the global `LOCK` around its
write) and `save_stats` (which writes with no lock). Wall-clock values
(`time.time()`, `datetime.now().strftime`) and the random hex of
`uuid.uuid4().hex` are passed in as explicit parameters. The QR-image
file cache touched by `queue_qr`/`delete_queue` is outside the two
documents and is not part of the state modelled here.
-/

/-- A single queue: `{"created": ..., "users": [...]}` (app.py line 53). -/
structure Queue where
  created : Nat
  users : List String
deriving DecidableEq, Repr

/-- One entry of `stats["history"]`: the dict appended at app.py
lines 136-140 (serve, no `event` key, modelled `event = none`) or
lines 172-177 (deletion, `event = some "Queue deleted"`). -/
structure HistoryEntry where
  user : String
  queue : String
  event : Option String
  time : String
deriving DecidableEq, Repr

/-- The stats document `{"served_today": ..., "history": [...]}` (app.py line 30). -/
structure Stats where
  served_today : Nat
  history : List HistoryEntry
deriving DecidableEq, Repr

/-- The queue-store document `queues.json`: a dict from queue id to queue. -/
abbrev Store : Type := String → Option Queue

/-- Primitive persistence effects recorded by the handlers, in program
order: `save_data` (app.py 23-25) acquires `LOCK`, writes the queue
document, releases; `save_stats` (app.py 32-33) just writes. -/
inductive Event where
  | acquireLock
  | writeData
  | writeStats
  | releaseLock
deriving DecidableEq, Repr

/-- Effect trace of `save_data(data)` (app.py 23-25): `with LOCK:
DATA_FILE.write_text(...)`. -/
def save_data_trace : List Event := [.acquireLock, .writeData, .releaseLock]

/-- Effect trace of `save_stats(stats)` (app.py 32-33): a bare
`STATS_FILE.write_text(...)`, no lock. -/
def save_stats_trace : List Event := [.writeStats]

/-- Python `l[-50:]`: the last `n` elements of a list. -/
def takeLast (n : Nat) (l : List α) : List α := l.drop (l.length - n)

/-- The name chosen by `queue_join` (app.py line 98):
`payload.get("name") or f"User_{uuid.uuid4().hex[:6]}"`; the default is
used when the payload name is missing (`None`) or empty (falsy). -/
def joinName (payloadName : Option String) (uuidHex : String) : String :=
  match payloadName with
  | none => "User_" ++ uuidHex.take 6
  | some s => if s = "" then "User_" ++ uuidHex.take 6 else s

/-- `create_queue` (app.py 49-56): `queue_id = uuid.uuid4().hex[:8]`,
then `data[queue_id] = {"created": time.time(), "users": []}` and
`save_data`. No check against existing keys is made. Returns the id. -/
def create_queue (uuidHex : String) (now : Nat) (data : Store) :
    String × Store × List Event :=
  let queue_id := uuidHex.take 8
  (queue_id,
   fun k => if k = queue_id then some { created := now, users := [] } else data k,
   save_data_trace)

/-- Response of `queue_join` (app.py 94-105). -/
inductive JoinResult where
  | notFound
  | joined (name : String) (position : Nat)
deriving DecidableEq, Repr

/-- `queue_join` (app.py 94-105): choose the name (line 98), 404 if the
id is absent, else append to `users`, `save_data`, and answer with the
name and `len(data[queue_id]["users"])` after the append. -/
def queue_join (queue_id : String) (payloadName : Option String) (uuidHex : String)
    (data : Store) : JoinResult × Store × List Event :=
  let name := joinName payloadName uuidHex
  match data queue_id with
  | none => (.notFound, data, [])
  | some q =>
      let q' : Queue := { q with users := q.users ++ [name] }
      (.joined name q'.users.length,
       fun k => if k = queue_id then some q' else data k,
       save_data_trace)

/-- Response of `queue_add` (app.py 107-119). -/
inductive AddResult where
  | missingName
  | notFound
  | ok
deriving DecidableEq, Repr

/-- `queue_add` (app.py 107-119): `name = payload.get("name")`; 400 if
`not name` (missing or empty), 404 if the id is absent, else append and
`save_data`. -/
def queue_add (queue_id : String) (payloadName : Option String) (data : Store) :
    AddResult × Store × List Event :=
  if payloadName.getD "" = "" then (.missingName, data, [])
  else
    match data queue_id with
    | none => (.notFound, data, [])
    | some q =>
        (.ok,
         fun k => if k = queue_id then some { q with users := q.users ++ [payloadName.getD ""] }
                  else data k,
         save_data_trace)

/-- Response of `queue_next` (app.py 121-145): 404, `{"removed": None}`,
or `{"removed": name}`. -/
inductive NextResult where
  | notFound
  | removedNone
  | removed (name : String)
deriving DecidableEq, Repr

/-- `queue_next` (app.py 121-145): 404 if the id is absent. If `users`
is non-empty, pop the front, `save_data`, increment `served_today`,
append a history entry, truncate history to the last 50, `save_stats`,
and return the removed name; otherwise return `None` with no mutation. -/
def queue_next (queue_id : String) (now : String) (data : Store) (stats : Stats) :
    NextResult × Store × Stats × List Event :=
  match data queue_id with
  | none => (.notFound, data, stats, [])
  | some q =>
    match q.users with
    | [] => (.removedNone, data, stats, [])
    | removed :: rest =>
        (.removed removed,
         fun k => if k = queue_id then some { q with users := rest } else data k,
         { served_today := stats.served_today + 1,
           history := takeLast 50 (stats.history ++
             [{ user := removed, queue := queue_id, event := none, time := now }]) },
         save_data_trace ++ save_stats_trace)

/-- Response of `queue_clear` / `delete_queue`: 404 or `{"ok": true}`. -/
inductive OkResult where
  | notFound
  | ok
deriving DecidableEq, Repr

/-- `queue_clear` (app.py 147-155): 404 if the id is absent, else set
`users` to `[]` and `save_data`. -/
def queue_clear (queue_id : String) (data : Store) : OkResult × Store × List Event :=
  match data queue_id with
  | none => (.notFound, data, [])
  | some q =>
      (.ok,
       fun k => if k = queue_id then some { q with users := [] } else data k,
       save_data_trace)

/-- `delete_queue` (app.py 157-185): 404 if the id is absent; otherwise
(after removing the cached QR file, outside the modelled state) append
the deletion entry to history, truncate to the last 50 and `save_stats`
FIRST, then `del data[qid]` and `save_data`. -/
def delete_queue (qid : String) (now : String) (data : Store) (stats : Stats) :
    OkResult × Store × Stats × List Event :=
  match data qid with
  | none => (.notFound, data, stats, [])
  | some _ =>
      (.ok,
       fun k => if k = qid then none else data k,
       { stats with history := takeLast 50 (stats.history ++
           [{ user := "-", queue := qid, event := some "Queue deleted", time := now }]) },
       save_stats_trace ++ save_data_trace)

/-- `clear_last_history` (app.py 218-228): if history is empty report
nothing to clear, else `pop()` the last entry and `save_stats`. -/
def clear_last_history (stats : Stats) : Option HistoryEntry × Stats × List Event :=
  match stats.history.getLast? with
  | none => (none, stats, [])
  | some last => (some last, { stats with history := stats.history.dropLast }, save_stats_trace)

/-- `clear_all_history` (app.py 230-237): record the prior length, set
history to `[]`, `save_stats`. -/
def clear_all_history (stats : Stats) : Nat × Stats × List Event :=
  (stats.history.length, { stats with history := [] }, save_stats_trace)

/-! ### Machinery for the FIFO claim: sequences of join/add operations
followed by repeated serves. -/

/-- One enqueueing request: a user-side `queue_join` (with its payload
name and the uuid hex drawn for the default name) or an admin-side
`queue_add`. -/
inductive JoinOp where
  | join (payloadName : Option String) (uuidHex : String)
  | add (name : String)

/-- The name an operation appends, if it succeeds on an existing queue:
`queue_join` always appends `joinName`; `queue_add` appends its name
unless the name is empty (in which case it fails and appends nothing). -/
def joinedName? : JoinOp → Option String
  | .join p u => some (joinName p u)
  | .add n => if n = "" then none else some n

/-- The names appended by a sequence of operations, in call order. -/
def joinedNames : List JoinOp → List String
  | [] => []
  | op :: rest =>
    match joinedName? op with
    | some n => n :: joinedNames rest
    | none => joinedNames rest

/-- Run one enqueueing request against the store, keeping the resulting
store. -/
def applyJoin (qid : String) (op : JoinOp) (data : Store) : Store :=
  match op with
  | .join p u => (queue_join qid p u data).2.1
  | .add n => (queue_add qid (some n) data).2.1

/-- Run a sequence of enqueueing requests in order. -/
def applyJoins (qid : String) (ops : List JoinOp) (data : Store) : Store :=
  match ops with
  | [] => data
  | op :: rest => applyJoins qid rest (applyJoin qid op data)

/-- Call `queue_next` repeatedly (up to `fuel` times), collecting the
removed names in order; stops at the first call that removes nobody. -/
def serveAll (fuel : Nat) (qid now : String) (data : Store) (stats : Stats) :
    List String :=
  match fuel with
  | 0 => []
  | fuel + 1 =>
    match queue_next qid now data stats with
    | (.removed u, data', stats', _) => u :: serveAll fuel qid now data' stats'
    | _ => []

lemma applyJoin_lookup (qid : String) (op : JoinOp) (data : Store) (q : Queue)
    (hq : data qid = some q) :
    applyJoin qid op data qid
      = some { q with users := q.users ++ (joinedName? op).toList } := by
  cases op with
  | join p u => simp [applyJoin, queue_join, hq, joinedName?]
  | add n =>
    by_cases hn : n = ""
    · simp [applyJoin, queue_add, hn, hq, joinedName?]
    · simp [applyJoin, queue_add, hn, hq, joinedName?]

lemma applyJoins_lookup (qid : String) (ops : List JoinOp) :
    ∀ (data : Store) (q : Queue), data qid = some q →
      applyJoins qid ops data qid
        = some { q with users := q.users ++ joinedNames ops } := by
  induction ops with
  | nil => intro data q hq; simpa [applyJoins, joinedNames] using hq
  | cons op rest ih =>
    intro data q hq
    have hstep := applyJoin_lookup qid op data q hq
    have h2 := ih (applyJoin qid op data) _ hstep
    simp only [applyJoins] at h2 ⊢
    rw [h2]
    cases hj : joinedName? op <;>
      simp [joinedNames, hj, List.append_assoc]

lemma queue_next_cons (qid now : String) (data : Store) (stats : Stats)
    (q : Queue) (u : String) (rest : List String)
    (hq : data qid = some q) (hu : q.users = u :: rest) :
    (queue_next qid now data stats).1 = .removed u
    ∧ (queue_next qid now data stats).2.1 qid = some { q with users := rest } := by
  simp [queue_next, hq, hu]

lemma serveAll_drain (qid now : String) :
    ∀ (us : List String) (data : Store) (stats : Stats) (q : Queue),
      data qid = some q → q.users = us →
      serveAll us.length qid now data stats = us := by
  intro us
  induction us with
  | nil => intro data stats q _ _; simp [serveAll]
  | cons u rest ih =>
    intro data stats q hq hu
    have hnext : queue_next qid now data stats
        = (.removed u,
           fun k => if k = qid then some { q with users := rest } else data k,
           { served_today := stats.served_today + 1,
             history := takeLast 50 (stats.history ++
               [{ user := u, queue := qid, event := none, time := now }]) },
           save_data_trace ++ save_stats_trace) := by
      simp [queue_next, hq, hu]
    have hq' : (fun k => if k = qid then some { q with users := rest } else data k) qid
        = some { q with users := rest } := by simp
    simp only [List.length_cons, serveAll, hnext]
    exact congrArg (u :: ·) (ih _ _ _ hq' rfl)

/-- C1: starting from a fresh (empty) queue, any sequence of
JoinQueue/AddUser requests leaves the queue's `users` equal to the list
of appended names in call order; serving that many times returns exactly
those names in order; and each single successful ServeNext removes and
returns the front element of `users`. -/
theorem serve_next_fifo (qid now : String) (ops : List JoinOp) (data : Store)
    (stats : Stats) (q : Queue) (hq : data qid = some q) (hfresh : q.users = []) :
    (applyJoins qid ops data) qid = some { created := q.created, users := joinedNames ops }
    ∧ serveAll (joinedNames ops).length qid now (applyJoins qid ops data) stats
        = joinedNames ops
    ∧ (∀ (d : Store) (st : Stats) (q' : Queue) (u : String) (rest : List String),
        d qid = some q' → q'.users = u :: rest →
        (queue_next qid now d st).1 = .removed u
        ∧ (queue_next qid now d st).2.1 qid = some { q' with users := rest }) := by
  have hlook := applyJoins_lookup qid ops data q hq
  rw [hfresh] at hlook
  simp only [List.nil_append] at hlook
  refine ⟨hlook, ?_, fun d st q' u rest hd hu => queue_next_cons qid now d st q' u rest hd hu⟩
  exact serveAll_drain qid now (joinedNames ops) _ stats _ hlook rfl

/-- Witness for C1 at a concrete store and operation sequence. -/
theorem serve_next_fifo_witness :
    ((fun k => if k = "q1" then some (Queue.mk 0 []) else none : Store) "q1"
        = some (Queue.mk 0 []))
    ∧ (Queue.mk 0 []).users = []
    ∧ serveAll (joinedNames [JoinOp.add "Alice", JoinOp.add "Bob"]).length "q1" "12:00:00"
        (applyJoins "q1" [JoinOp.add "Alice", JoinOp.add "Bob"]
          (fun k => if k = "q1" then some (Queue.mk 0 []) else none))
        (Stats.mk 0 [])
        = joinedNames [JoinOp.add "Alice", JoinOp.add "Bob"] :=
  ⟨by decide, rfl,
    (serve_next_fifo "q1" "12:00:00" [JoinOp.add "Alice", JoinOp.add "Bob"]
      (fun k => if k = "q1" then some (Queue.mk 0 []) else none)
      (Stats.mk 0 []) (Queue.mk 0 []) (by decide) rfl).2.1⟩

/-- Counterexample for C2: `create_queue` performs no collision check.
With a live queue at id "aaaaaaaa" and a uuid whose 8-char hex
abbreviation is that same id, `create_queue` returns an id that IS the
id of a live queue, and the existing queue (users ["alice"]) is
overwritten by the fresh empty one. -/
theorem create_queue_collision :
    ((fun k => if k = "aaaaaaaa" then some (Queue.mk 5 ["alice"]) else none : Store)
        (create_queue "aaaaaaaa111122223333444455556666" 7
          (fun k => if k = "aaaaaaaa" then some (Queue.mk 5 ["alice"]) else none)).1
      = some (Queue.mk 5 ["alice"]))
    ∧ (create_queue "aaaaaaaa111122223333444455556666" 7
        (fun k => if k = "aaaaaaaa" then some (Queue.mk 5 ["alice"]) else none)).2.1
        "aaaaaaaa" = some (Queue.mk 7 [])
    ∧ Queue.mk 7 ([] : List String) ≠ Queue.mk 5 ["alice"] := by
  refine ⟨by decide, by decide, by decide⟩

/-- C2 (amended): `create_queue` inserts a queue with an empty `users`
sequence under the id `uuid4().hex[:8]` and returns that id, with no
collision check; provided the generated id does not collide with a live
queue, every existing queue is left unchanged (so none is overwritten). -/
theorem create_queue_fresh (uuidHex : String) (now : Nat) (data : Store)
    (hfresh : data (uuidHex.take 8) = none) :
    (create_queue uuidHex now data).1 = uuidHex.take 8
    ∧ (create_queue uuidHex now data).2.1 (uuidHex.take 8)
        = some { created := now, users := [] }
    ∧ ∀ k, data k ≠ none →
        (create_queue uuidHex now data).2.1 k = data k ∧ k ≠ uuidHex.take 8 := by
  refine ⟨by simp only [create_queue], by simp only [create_queue]; simp, fun k hk => ?_⟩
  have hne : k ≠ uuidHex.take 8 := fun h => hk (h ▸ hfresh)
  refine ⟨?_, hne⟩
  simp only [create_queue]
  simp [hne]

/-- Witness for C2's amended theorem at a concrete store. -/
theorem create_queue_fresh_witness :
    ((fun k => if k = "bbbbbbbb" then some (Queue.mk 1 ["carol"]) else none : Store)
        ("aaaaaaaa111122223333444455556666".take 8) = none)
    ∧ (create_queue "aaaaaaaa111122223333444455556666" 7
        (fun k => if k = "bbbbbbbb" then some (Queue.mk 1 ["carol"]) else none)).1
      = "aaaaaaaa111122223333444455556666".take 8 :=
  ⟨by decide,
   (create_queue_fresh "aaaaaaaa111122223333444455556666" 7
      (fun k => if k = "bbbbbbbb" then some (Queue.mk 1 ["carol"]) else none)
      (by decide)).1⟩

/-! ### Machinery for the history-bound claim: the operations that
mutate `stats["history"]`. -/

/-- A history-mutating request: ServeNext, DeleteQueue, clear-last,
clear-all. -/
inductive StatsOp where
  | next (qid now : String)
  | delete (qid now : String)
  | clearLast
  | clearAll

/-- Run one history-mutating request against the pair of documents. -/
def applyStatsOp (op : StatsOp) (s : Store × Stats) : Store × Stats :=
  match op with
  | .next qid now =>
      let r := queue_next qid now s.1 s.2
      (r.2.1, r.2.2.1)
  | .delete qid now =>
      let r := delete_queue qid now s.1 s.2
      (r.2.1, r.2.2.1)
  | .clearLast => (s.1, (clear_last_history s.2).2.1)
  | .clearAll => (s.1, (clear_all_history s.2).2.1)

/-- Run a sequence of history-mutating requests in order. -/
def applyStatsOps (ops : List StatsOp) (s : Store × Stats) : Store × Stats :=
  ops.foldl (fun s op => applyStatsOp op s) s

lemma takeLast_length_le (n : Nat) (l : List α) : (takeLast n l).length ≤ n := by
  simp only [takeLast, List.length_drop]
  omega

lemma applyStatsOp_history_le (op : StatsOp) (s : Store × Stats)
    (h : s.2.history.length ≤ 50) :
    (applyStatsOp op s).2.history.length ≤ 50 := by
  cases op with
  | next qid now =>
    cases hq : s.1 qid with
    | none => simpa [applyStatsOp, queue_next, hq] using h
    | some q =>
      cases hu : q.users with
      | nil => simpa [applyStatsOp, queue_next, hq, hu] using h
      | cons u rest =>
        simp only [applyStatsOp, queue_next, hq, hu]
        exact takeLast_length_le 50 _
  | delete qid now =>
    cases hq : s.1 qid with
    | none => simpa [applyStatsOp, delete_queue, hq] using h
    | some q =>
      simp only [applyStatsOp, delete_queue, hq]
      exact takeLast_length_le 50 _
  | clearLast =>
    cases hl : s.2.history.getLast? with
    | none => simpa [applyStatsOp, clear_last_history, hl] using h
    | some e =>
      simp only [applyStatsOp, clear_last_history, hl, List.length_dropLast]
      omega
  | clearAll => simp [applyStatsOp, clear_all_history]

lemma applyStatsOps_history_le (ops : List StatsOp) :
    ∀ s : Store × Stats, s.2.history.length ≤ 50 →
      (applyStatsOps ops s).2.history.length ≤ 50 := by
  induction ops with
  | nil => intro s h; simpa [applyStatsOps] using h
  | cons op rest ih =>
    intro s h
    have := applyStatsOp_history_le op s h
    simpa [applyStatsOps, List.foldl_cons] using ih (applyStatsOp op s) this

/-- C3: starting from the initial stats document (empty history), any
sequence of history-mutating operations (ServeNext, DeleteQueue,
ClearLastEntry, ClearAllHistory) leaves `history` of length at most 50;
each single such operation preserves the ≤ 50 bound; and the truncation
applied on append keeps a suffix of the appended list (dropping the
oldest entries from the head) of length `min (old + 1) 50`. -/
theorem history_bounded (data : Store) (ops : List StatsOp) :
    ((applyStatsOps ops (data, { served_today := 0, history := [] })).2.history.length ≤ 50)
    ∧ (∀ (op : StatsOp) (s : Store × Stats), s.2.history.length ≤ 50 →
        (applyStatsOp op s).2.history.length ≤ 50)
    ∧ (∀ (h : List HistoryEntry) (e : HistoryEntry),
        takeLast 50 (h ++ [e]) <:+ (h ++ [e])
        ∧ (takeLast 50 (h ++ [e])).length = min (h.length + 1) 50) := by
  refine ⟨applyStatsOps_history_le ops _ (by simp), applyStatsOp_history_le, fun h e => ?_⟩
  constructor
  · exact List.drop_suffix _ _
  · simp only [takeLast, List.length_drop, List.length_append, List.length_cons,
      List.length_nil]
    omega

/-- C4: ServeNext on an existing queue whose `users` is empty returns
`None` and changes nothing: the store, the stats document (counter and
history), and the persistence trace (no save at all) are untouched. -/
theorem serve_next_empty_noop (qid now : String) (data : Store) (stats : Stats)
    (q : Queue) (hq : data qid = some q) (hempty : q.users = []) :
    queue_next qid now data stats = (.removedNone, data, stats, []) := by
  simp [queue_next, hq, hempty]

/-- Witness for C4 at a concrete store holding an empty queue. -/
theorem serve_next_empty_noop_witness :
    ((fun k => if k = "q9" then some (Queue.mk 3 []) else none : Store) "q9"
        = some (Queue.mk 3 []))
    ∧ queue_next "q9" "09:00:00"
        (fun k => if k = "q9" then some (Queue.mk 3 []) else none)
        (Stats.mk 4 [HistoryEntry.mk "dan" "q9" none "08:00:00"])
      = (.removedNone,
         fun k => if k = "q9" then some (Queue.mk 3 []) else none,
         Stats.mk 4 [HistoryEntry.mk "dan" "q9" none "08:00:00"], []) :=
  ⟨by decide,
   serve_next_empty_noop "q9" "09:00:00"
     (fun k => if k = "q9" then some (Queue.mk 3 []) else none)
     (Stats.mk 4 [HistoryEntry.mk "dan" "q9" none "08:00:00"])
     (Queue.mk 3 []) (by decide) rfl⟩

/-- A lowercase hexadecimal digit, the alphabet of Python's
`uuid.uuid4().hex`. -/
def isLowerHexDigit (c : Char) : Bool := c.isDigit || ('a' ≤ c && c ≤ 'f')

lemma take_string_length (s : String) (hlen : s.length = 32) :
    (s.take 6).length = 6 := by
  have h2 : s.data.length = 32 := by rw [String.length_data, hlen]
  rw [← String.length_data, String.data_take, List.length_take]
  omega

lemma take_string_all (s : String) (p : Char → Bool) (h : s.all p = true) (n : Nat) :
    (s.take n).all p = true := by
  rw [String.all_eq] at h ⊢
  rw [String.data_take]
  rw [List.all_eq_true] at h ⊢
  exact fun c hc => h c (List.take_subset n s.1 hc)

/-- C5: on an existing queue, `queue_join` appends the chosen name and
answers with it and the 1-based position equal to the new length of
`users`; when the payload name is missing or empty the chosen name is
`"User_" ++ uuid4().hex[:6]`, whose suffix is 6 lowercase-hex characters
(so the name matches `User_<6 hex chars>`); on an absent id it fails
not_found with no state change and no save. -/
theorem join_queue_spec (qid uuidHex : String) (data : Store) (q : Queue)
    (hq : data qid = some q) (hlen : uuidHex.length = 32)
    (hhex : uuidHex.all isLowerHexDigit = true) :
    (∀ p, (queue_join qid p uuidHex data).1
            = .joined (joinName p uuidHex) (q.users.length + 1)
        ∧ (queue_join qid p uuidHex data).2.1 qid
            = some { q with users := q.users ++ [joinName p uuidHex] })
    ∧ (∀ p, p = none ∨ p = some "" → joinName p uuidHex = "User_" ++ uuidHex.take 6)
    ∧ (uuidHex.take 6).length = 6
    ∧ (uuidHex.take 6).all isLowerHexDigit = true
    ∧ (∀ (d : Store) (p : Option String), d qid = none →
        queue_join qid p uuidHex d = (.notFound, d, [])) := by
  refine ⟨fun p => ⟨?_, ?_⟩, fun p hp => ?_,
    take_string_length uuidHex hlen, take_string_all uuidHex _ hhex 6, fun d p hd => ?_⟩
  · simp [queue_join, hq]
  · simp [queue_join, hq]
  · rcases hp with h | h <;> simp [h, joinName]
  · simp [queue_join, hd]

/-- Witness for C5 at a concrete store and a concrete 32-char uuid hex. -/
theorem join_queue_spec_witness :
    ((fun k => if k = "q1" then some (Queue.mk 2 ["erin"]) else none : Store) "q1"
        = some (Queue.mk 2 ["erin"]))
    ∧ "0123456789abcdef0123456789abcdef".length = 32
    ∧ "0123456789abcdef0123456789abcdef".all isLowerHexDigit = true
    ∧ ("0123456789abcdef0123456789abcdef".take 6).length = 6 :=
  ⟨by decide, by decide, by rw [String.all_eq]; decide,
   (join_queue_spec "q1" "0123456789abcdef0123456789abcdef"
      (fun k => if k = "q1" then some (Queue.mk 2 ["erin"]) else none)
      (Queue.mk 2 ["erin"]) (by decide) (by decide)
      (by rw [String.all_eq]; decide)).2.2.1⟩

/-- Counterexample for C6: DeleteQueue persists the stats append BEFORE
the queue-store deletion. On a store holding queue "q1", the effect
trace of `delete_queue` is the (unlocked) stats write followed by the
locked queue-store write — not the claimed queue-first order. -/
theorem delete_queue_saves_stats_first :
    (delete_queue "q1" "12:00:00"
        (fun k => if k = "q1" then some (Queue.mk 0 ["alice"]) else none)
        (Stats.mk 0 [])).2.2.2
      = save_stats_trace ++ save_data_trace
    ∧ (delete_queue "q1" "12:00:00"
        (fun k => if k = "q1" then some (Queue.mk 0 ["alice"]) else none)
        (Stats.mk 0 [])).2.2.2
      ≠ save_data_trace ++ save_stats_trace := by
  refine ⟨by decide, by decide⟩

/-- C6 (amended): ServeNext on a non-empty queue persists the
queue-store mutation first and the stats append second, as claimed; but
DeleteQueue does the opposite, persisting the stats append first and the
queue-store deletion second. In both cases the two writes are separate
transactions (no common critical section), so a crash between them
desynchronizes exactly one document: for ServeNext only the stats entry
can be lost, while for DeleteQueue the deletion entry can be recorded
with the queue not yet deleted. -/
theorem two_transaction_order (qid now : String) (data : Store) (stats : Stats)
    (q : Queue) (hq : data qid = some q) :
    (q.users ≠ [] → (queue_next qid now data stats).2.2.2
        = save_data_trace ++ save_stats_trace)
    ∧ (delete_queue qid now data stats).2.2.2
        = save_stats_trace ++ save_data_trace := by
  constructor
  · intro hne
    cases hu : q.users with
    | nil => exact absurd hu hne
    | cons u rest => simp [queue_next, hq, hu]
  · simp [delete_queue, hq]

/-- Witness for C6's amended theorem at a concrete non-empty queue. -/
theorem two_transaction_order_witness :
    ((fun k => if k = "q2" then some (Queue.mk 1 ["bob"]) else none : Store) "q2"
        = some (Queue.mk 1 ["bob"]))
    ∧ (Queue.mk 1 ["bob"]).users ≠ []
    ∧ (queue_next "q2" "13:00:00"
        (fun k => if k = "q2" then some (Queue.mk 1 ["bob"]) else none)
        (Stats.mk 0 [])).2.2.2
      = save_data_trace ++ save_stats_trace :=
  ⟨by decide, by decide,
   (two_transaction_order "q2" "13:00:00"
      (fun k => if k = "q2" then some (Queue.mk 1 ["bob"]) else none)
      (Stats.mk 0 []) (Queue.mk 1 ["bob"]) (by decide)).1 (by decide)⟩

/-- C7: `queue_add` fails missing_name exactly when the supplied name is
missing or empty (this is checked first, with no state change and no
save); fails not_found exactly when the name is non-empty and the queue
id is absent (again with no state change and no save); and otherwise
appends the name to the queue's `users` and returns ok. -/
theorem add_user_spec (qid : String) (p : Option String) (data : Store) :
    ((p = none ∨ p = some "") → queue_add qid p data = (.missingName, data, []))
    ∧ (∀ n, p = some n → n ≠ "" → data qid = none →
        queue_add qid p data = (.notFound, data, []))
    ∧ (∀ n q, p = some n → n ≠ "" → data qid = some q →
        queue_add qid p data
          = (.ok,
             fun k => if k = qid then some { q with users := q.users ++ [n] } else data k,
             save_data_trace)) := by
  refine ⟨fun hp => ?_, fun n hp hn hd => ?_, fun n q hp hn hd => ?_⟩
  · rcases hp with h | h <;> simp [queue_add, h]
  · subst hp; simp [queue_add, hn, hd]
  · subst hp; simp [queue_add, hn, hd]

/-- Witness for C7: the missing-name branch at a concrete input. -/
theorem add_user_spec_witness :
    ((none : Option String) = none ∨ (none : Option String) = some "")
    ∧ queue_add "q1" none (fun _ => none)
        = (.missingName, (fun _ => none : Store), []) :=
  ⟨Or.inl rfl, (add_user_spec "q1" none (fun _ => none)).1 (Or.inl rfl)⟩

/-- C8: ClearQueue is idempotent: on an existing queue both consecutive
calls succeed with ok, after each call the queue's `users` is `[]`, and
the second call leaves the store exactly as the first left it. -/
theorem clear_queue_idempotent (qid : String) (data : Store) (q : Queue)
    (hq : data qid = some q) :
    (queue_clear qid data).1 = .ok
    ∧ (queue_clear qid data).2.1 qid = some { q with users := [] }
    ∧ (queue_clear qid (queue_clear qid data).2.1).1 = .ok
    ∧ (queue_clear qid (queue_clear qid data).2.1).2.1 qid
        = some { q with users := [] }
    ∧ (queue_clear qid (queue_clear qid data).2.1).2.1 = (queue_clear qid data).2.1 := by
  refine ⟨by simp [queue_clear, hq], by simp [queue_clear, hq],
    by simp [queue_clear, hq], by simp [queue_clear, hq], ?_⟩
  funext k
  by_cases hk : k = qid
  · subst hk; simp [queue_clear, hq]
  · simp [queue_clear, hq, hk]

/-- Witness for C8 at a concrete store. -/
theorem clear_queue_idempotent_witness :
    ((fun k => if k = "q3" then some (Queue.mk 9 ["fay", "gus"]) else none : Store) "q3"
        = some (Queue.mk 9 ["fay", "gus"]))
    ∧ (queue_clear "q3"
        (fun k => if k = "q3" then some (Queue.mk 9 ["fay", "gus"]) else none)).2.1 "q3"
      = some (Queue.mk 9 []) :=
  ⟨by decide,
   (clear_queue_idempotent "q3"
      (fun k => if k = "q3" then some (Queue.mk 9 ["fay", "gus"]) else none)
      (Queue.mk 9 ["fay", "gus"]) (by decide)).2.1⟩

/-- A persistence trace that performs its writes while holding the
mutual-exclusion lock: it acquires the lock first and releases it last. -/
def lockGuarded (tr : List Event) : Prop :=
  ∃ mid, tr = Event.acquireLock :: (mid ++ [Event.releaseLock])

/-- Counterexample for C9: `save_stats` writes the stats document
without ever touching the lock, so the save of that logical document is
not serialized by a mutual-exclusion lock held for the write. -/
theorem save_stats_unlocked :
    save_stats_trace = [Event.writeStats]
    ∧ Event.acquireLock ∉ save_stats_trace
    ∧ Event.releaseLock ∉ save_stats_trace := by
  refine ⟨rfl, by decide, by decide⟩

/-- C9 (amended): only the queue-store save is serialized: `save_data`
holds the global lock for the duration of its write, while `save_stats`
performs a bare write with no lock at all. -/
theorem save_lock_discipline :
    lockGuarded save_data_trace ∧ ¬ lockGuarded save_stats_trace := by
  constructor
  · exact ⟨[Event.writeData], rfl⟩
  · rintro ⟨mid, h⟩
    cases mid <;> simp [save_stats_trace] at h

/-- C10: every queue-mutating operation on queue id `qid` leaves every
queue at any other id unchanged (same id, created timestamp and users),
even though each handler rewrites the whole document. -/
theorem frame_other_queues (qid k now uuidHex : String) (p p2 : Option String)
    (data : Store) (stats : Stats) (hk : k ≠ qid) :
    (queue_join qid p uuidHex data).2.1 k = data k
    ∧ (queue_add qid p2 data).2.1 k = data k
    ∧ (queue_next qid now data stats).2.1 k = data k
    ∧ (queue_clear qid data).2.1 k = data k
    ∧ (delete_queue qid now data stats).2.1 k = data k := by
  refine ⟨?_, ?_, ?_, ?_, ?_⟩
  · cases hq : data qid <;> simp [queue_join, hq, hk]
  · by_cases hn : p2.getD "" = ""
    · simp [queue_add, hn]
    · cases hq : data qid <;> simp [queue_add, hn, hq, hk]
  · cases hq : data qid with
    | none => simp [queue_next, hq]
    | some q => cases hu : q.users <;> simp [queue_next, hq, hu, hk]
  · cases hq : data qid <;> simp [queue_clear, hq, hk]
  · cases hq : data qid <;> simp [delete_queue, hq, hk]

/-- Witness for C10 at a concrete two-queue store. -/
theorem frame_other_queues_witness :
    ("other" ≠ "q4")
    ∧ (queue_clear "q4"
        (fun k => if k = "q4" then some (Queue.mk 0 ["hal"])
                  else if k = "other" then some (Queue.mk 1 ["ida"]) else none)).2.1 "other"
      = (fun k => if k = "q4" then some (Queue.mk 0 ["hal"])
                  else if k = "other" then some (Queue.mk 1 ["ida"]) else none : Store) "other" :=
  ⟨by decide,
   (frame_other_queues "q4" "other" "14:00:00" "0123456789abcdef0123456789abcdef"
      none (some "nina")
      (fun k => if k = "q4" then some (Queue.mk 0 ["hal"])
                else if k = "other" then some (Queue.mk 1 ["ida"]) else none)
      (Stats.mk 0 []) (by decide)).2.2.2.1⟩

/-- Witness for C3 at a concrete operation sequence. -/
theorem history_bounded_witness :
    (applyStatsOps [StatsOp.next "q1" "10:00:00", StatsOp.clearLast, StatsOp.clearAll]
        ((fun k => if k = "q1" then some (Queue.mk 0 ["kim"]) else none : Store),
         { served_today := 0, history := [] })).2.history.length ≤ 50 :=
  (history_bounded
    (fun k => if k = "q1" then some (Queue.mk 0 ["kim"]) else none)
    [StatsOp.next "q1" "10:00:00", StatsOp.clearLast, StatsOp.clearAll]).1
